import Mathlib

/-!
Verification of the conflict-safe bidirectional git synchronization engine
(`src/sync-v3.js` of the git-auto-sync repository) against its natural-language
specification.

The effectful JavaScript functions are shallowly embedded as pure Lean
functions.  Every external effect (a git command, a filesystem read or copy,
a network call) is represented by an explicit environment record that states
what the outside world answers to each call, and each embedded function
returns, next to the value the source computes, the trace of operations it
performed and the files it created.  File digests (md5 in the source, used
only for byte-equality tests between two snapshots of the same path) are
modelled by the file content itself, an injective fingerprint.
-/

namespace GitAutoSync

/-- Git/network operations the engine can perform, recorded in traces. -/
inductive GitOp where
  | fetch
  | diff
  | stash
  | pull
  | add
  | commit
  | push
deriving DecidableEq

/-- Outcome tag of one per-file conflict resolution
(`resolutions.push({resolution: ...})` in `resolveConflicts`). -/
inductive ResolutionKind where
  | identical
  | localNewer
  | remoteNewer
  | skipped
  | failed
deriving DecidableEq

/-- One entry of the `resolutions` array built by `resolveConflicts`. -/
structure Resolution where
  file : String
  resolution : ResolutionKind
deriving DecidableEq

/-- Which side a timestamped backup file records (`local`/`remote` suffix). -/
inductive Marker where
  | localSide
  | remoteSide
deriving DecidableEq

/-- A backup file written by `backupFile(filePath, suffix)`: the conflicted
path, the marker in the suffix, and the bytes the copy captured. -/
structure Backup where
  file : String
  marker : Marker
  content : String
deriving DecidableEq

/-- A conflict descriptor as built by `detectConflicts` (src lines 152-157):
relative path, absolute path, and the local file's snapshotted mtime and
digest (digest modelled by the content; `none` when the file was unreadable,
mtime `0` when `stat` failed). -/
structure Conflict where
  file : String
  path : String
  localMtime : Int
  localHash : Option String
deriving DecidableEq

/-- World answers consumed by one iteration of the `resolveConflicts` loop
(src lines 176-242).  Each flag says whether the corresponding external call
succeeds; `remoteContent`/`remoteMtime` are the state of the conflicted path
right after `git.pull()` (`none`/`0` when the pulled tree no longer has a
readable file there); `localContent` is what is on disk at the path when the
iteration starts, i.e. what the step-1 backup copies. -/
structure FileEnv where
  localContent : String
  backupOk : Bool
  stashOk : Bool
  pullOk : Bool
  remoteMtime : Int
  remoteContent : Option String
  restoreOk : Bool
  remoteBackupOk : Bool
  addOk : Bool

/-- Observable effect of one iteration of the `resolveConflicts` loop:
the resolutions pushed, the backup files created, and the git operations
that completed. -/
structure FileStep where
  resolutions : List Resolution
  backups : List Backup
  ops : List GitOp
deriving DecidableEq

/-- One iteration of the loop body of `resolveConflicts` (src lines 176-242).
Step 1 backs up the local content under the `local` marker; on failure the
file is skipped.  Then the repository is stashed and pulled.  If the local
mtime is strictly greater than the pulled file's mtime, the local backup is
copied back over the path and the path - which at that moment again holds
the LOCAL content - is backed up under the `remote` marker.  Otherwise equal
digests yield `identical`, and anything else yields `remoteNewer` with the
pulled content backed up under the `remote` marker.  A throwing call inside
the iteration lands in the catch, which records a `failed` resolution. -/
def resolveOneConflict (c : Conflict) (e : FileEnv) : FileStep :=
  if !e.backupOk then
    { resolutions := [⟨c.file, ResolutionKind.skipped⟩], backups := [], ops := [] }
  else
    let lb : Backup := ⟨c.file, Marker.localSide, e.localContent⟩
    if !e.stashOk then
      { resolutions := [⟨c.file, ResolutionKind.failed⟩], backups := [lb], ops := [] }
    else if !e.pullOk then
      { resolutions := [⟨c.file, ResolutionKind.failed⟩], backups := [lb],
        ops := [GitOp.stash] }
    else if c.localMtime > e.remoteMtime then
      if !e.restoreOk then
        { resolutions := [⟨c.file, ResolutionKind.failed⟩], backups := [lb],
          ops := [GitOp.stash, GitOp.pull] }
      else
        { resolutions := [⟨c.file, ResolutionKind.localNewer⟩] ++
            (if e.addOk then [] else [⟨c.file, ResolutionKind.failed⟩]),
          backups := [lb] ++
            (if e.remoteBackupOk then [⟨c.file, Marker.remoteSide, e.localContent⟩] else []),
          ops := [GitOp.stash, GitOp.pull] ++ (if e.addOk then [GitOp.add] else []) }
    else if c.localHash = e.remoteContent then
      { resolutions := [⟨c.file, ResolutionKind.identical⟩] ++
          (if e.addOk then [] else [⟨c.file, ResolutionKind.failed⟩]),
        backups := [lb],
        ops := [GitOp.stash, GitOp.pull] ++ (if e.addOk then [GitOp.add] else []) }
    else
      { resolutions := [⟨c.file, ResolutionKind.remoteNewer⟩] ++
          (if e.addOk then [] else [⟨c.file, ResolutionKind.failed⟩]),
        backups := [lb] ++
          (if e.remoteBackupOk then
            (match e.remoteContent with
              | some rc => [⟨c.file, Marker.remoteSide, rc⟩]
              | none => [])
           else []),
        ops := [GitOp.stash, GitOp.pull] ++ (if e.addOk then [GitOp.add] else []) }

/-- The whole `resolveConflicts` loop over a batch of conflicts, each paired
with the world answers its iteration receives; effects concatenate in input
order. -/
def resolveConflicts : List (Conflict × FileEnv) → FileStep
  | [] => { resolutions := [], backups := [], ops := [] }
  | (c, e) :: rest =>
    let s := resolveOneConflict c e
    let r := resolveConflicts rest
    { resolutions := s.resolutions ++ r.resolutions,
      backups := s.backups ++ r.backups,
      ops := s.ops ++ r.ops }

/-- Count of completed stash operations contributed by one loop iteration:
one exactly when the local backup succeeded (so the iteration was not
skipped) and the stash call itself succeeded. -/
theorem count_stash_resolveOne (c : Conflict) (e : FileEnv) :
    (resolveOneConflict c e).ops.count GitOp.stash =
      (if e.backupOk && e.stashOk then 1 else 0) := by
  by_cases hm : c.localMtime > e.remoteMtime <;>
    by_cases hh : c.localHash = e.remoteContent <;>
    cases hb : e.backupOk <;> cases hs : e.stashOk <;> cases hp : e.pullOk <;>
    cases hr : e.restoreOk <;> cases ha : e.addOk <;>
    simp [resolveOneConflict, hm, hh, hb, hs, hp, hr, ha]

/-- Count of completed pull operations contributed by one loop iteration. -/
theorem count_pull_resolveOne (c : Conflict) (e : FileEnv) :
    (resolveOneConflict c e).ops.count GitOp.pull =
      (if e.backupOk && e.stashOk && e.pullOk then 1 else 0) := by
  by_cases hm : c.localMtime > e.remoteMtime <;>
    by_cases hh : c.localHash = e.remoteContent <;>
    cases hb : e.backupOk <;> cases hs : e.stashOk <;> cases hp : e.pullOk <;>
    cases hr : e.restoreOk <;> cases ha : e.addOk <;>
    simp [resolveOneConflict, hm, hh, hb, hs, hp, hr, ha]

/-- A conflicting file whose local version is newer and differs from the
remote version, with every external call succeeding. -/
def conflictNotes : Conflict :=
  { file := "notes.txt", path := "repo/notes.txt", localMtime := 2, localHash := some "L" }

/-- World answers for `conflictNotes`: the pulled remote file has content
"R" and the older mtime 1, and every filesystem and git call succeeds. -/
def envLocalNewer : FileEnv :=
  { localContent := "L", backupOk := true, stashOk := true, pullOk := true,
    remoteMtime := 1, remoteContent := some "R", restoreOk := true,
    remoteBackupOk := true, addOk := true }

/-- C1 (code bug): in the local-newer outcome the source restores the local
backup over the pulled file first and only then copies the path into the
`remote`-marked backup, so that backup captures the restored LOCAL content
"L"; the pulled remote content "R" ends up in no backup file at all, even
though local and remote contents differ. -/
theorem localNewerRemoteBackupHoldsLocalContent :
    (resolveOneConflict conflictNotes envLocalNewer).resolutions =
      [⟨"notes.txt", ResolutionKind.localNewer⟩] ∧
    (resolveOneConflict conflictNotes envLocalNewer).backups =
      [⟨"notes.txt", Marker.localSide, "L"⟩, ⟨"notes.txt", Marker.remoteSide, "L"⟩] ∧
    (∀ b ∈ (resolveOneConflict conflictNotes envLocalNewer).backups, b.content ≠ "R") := by
  decide

/-- A second conflicting file processed in the same batch as `conflictNotes`. -/
def conflictDocs : Conflict :=
  { file := "docs.md", path := "repo/docs.md", localMtime := 5, localHash := some "D" }

/-- C3 counterexample: a batch of two conflicting files in which every
external call succeeds performs two stash operations, one inside each loop
iteration - not at most one for the whole repository as claimed. -/
theorem stashOncePerRepoCounterexample :
    (resolveConflicts [(conflictNotes, envLocalNewer), (conflictDocs, envLocalNewer)]).ops.count
        GitOp.stash = 2 ∧
    ¬ ((resolveConflicts [(conflictNotes, envLocalNewer), (conflictDocs, envLocalNewer)]).ops.count
        GitOp.stash ≤ 1) := by
  decide

/-- C3 (amended): the stash-with-untracked operation and the subsequent pull
are performed once per conflicting file, not once per repository: a batch
performs exactly one stash for every file whose local backup and stash call
succeed, and one pull for every file whose backup, stash and pull succeed. -/
theorem stashAndPullPerFile (batch : List (Conflict × FileEnv)) :
    (resolveConflicts batch).ops.count GitOp.stash =
      (batch.filter (fun p => p.2.backupOk && p.2.stashOk)).length ∧
    (resolveConflicts batch).ops.count GitOp.pull =
      (batch.filter (fun p => p.2.backupOk && p.2.stashOk && p.2.pullOk)).length := by
  induction batch with
  | nil => simp [resolveConflicts]
  | cons hd tl ih =>
    obtain ⟨c, e⟩ := hd
    refine ⟨?_, ?_⟩
    · simp only [resolveConflicts, List.count_append, ih.1, count_stash_resolveOne,
        List.filter_cons]
      cases hbs : (e.backupOk && e.stashOk) <;> simp [Nat.add_comm]
    · simp only [resolveConflicts, List.count_append, ih.2, count_pull_resolveOne,
        List.filter_cons]
      cases hbs : (e.backupOk && e.stashOk && e.pullOk) <;> simp [Nat.add_comm]

/-- A conflicting file whose content is byte-identical on both sides and
whose remote mtime is not older than the local one. -/
def conflictSame : Conflict :=
  { file := "same.txt", path := "repo/same.txt", localMtime := 1, localHash := some "X" }

/-- World answers for `conflictSame`: the pulled file has the same content
"X" and a newer mtime, and every call succeeds. -/
def envIdentical : FileEnv :=
  { localContent := "X", backupOk := true, stashOk := true, pullOk := true,
    remoteMtime := 2, remoteContent := some "X", restoreOk := true,
    remoteBackupOk := true, addOk := true }

/-- C4 counterexample: a file with equal local and remote digests does get
the `identical` outcome, yet a backup file for it IS created on disk - the
`local`-marked backup is written unconditionally before the digests are
compared, so the claimed "no backup files are created" is false. -/
theorem identicalStillCreatesLocalBackup :
    (resolveOneConflict conflictSame envIdentical).resolutions =
      [⟨"same.txt", ResolutionKind.identical⟩] ∧
    (resolveOneConflict conflictSame envIdentical).backups ≠ [] := by
  decide

/-- C4 (amended): for a conflicting file whose backup, stash and pull
succeed, whose local mtime is not strictly greater than the pulled remote
mtime, and whose local digest equals the remote digest, the outcome is
`identical` and the resolution creates no `remote`-marked backup: the only
backup on disk is the `local`-marked one written in step 1 before the
comparison. -/
theorem identicalOutcomeOnlyLocalBackup (c : Conflict) (e : FileEnv)
    (hb : e.backupOk = true) (hs : e.stashOk = true) (hp : e.pullOk = true)
    (hm : ¬ (c.localMtime > e.remoteMtime)) (hh : c.localHash = e.remoteContent) :
    (resolveOneConflict c e).resolutions.head? =
      some ⟨c.file, ResolutionKind.identical⟩ ∧
    (resolveOneConflict c e).backups = [⟨c.file, Marker.localSide, e.localContent⟩] := by
  cases ha : e.addOk <;> simp [resolveOneConflict, hb, hs, hp, hm, hh, ha]

/-- Witness: the amended C4 statement evaluated on the concrete
byte-identical conflict. -/
theorem identicalOutcomeOnlyLocalBackup_witness :
    (resolveOneConflict conflictSame envIdentical).resolutions.head? =
      some ⟨"same.txt", ResolutionKind.identical⟩ ∧
    (resolveOneConflict conflictSame envIdentical).backups =
      [⟨"same.txt", Marker.localSide, "X"⟩] :=
  identicalOutcomeOnlyLocalBackup conflictSame envIdentical rfl rfl rfl (by decide) rfl

/-- Characterwise model of JS `String.prototype.toLowerCase` as the source
uses it (ASCII repository and file names). -/
def jsToLower (s : String) : String := ⟨s.data.map Char.toLower⟩

/-- Characterwise model of JS `String.prototype.startsWith`. -/
def startsWithChars : List Char → List Char → Bool
  | _, [] => true
  | [], _ :: _ => false
  | c :: s, d :: p => (c == d) && startsWithChars s p

/-- JS `s.startsWith(pre)` on the underlying characters. -/
def jsStartsWith (s pre : String) : Bool := startsWithChars s.data pre.data

/-- Whitespace test for the JS `f.trim()` truthiness filter on diff lines. -/
def isJsSpace (c : Char) : Bool := c == ' ' || c == '\t' || c == '\n' || c == '\r'

/-- A diff output line is kept when trimming leaves it non-empty
(`.filter(f => f.trim())` on src line 139). -/
def keptDiffLine (s : String) : Bool :=
  !(((s.data.dropWhile isJsSpace).reverse.dropWhile isJsSpace).reverse.isEmpty)

/-- World answers consumed by `detectConflicts` (src lines 113-167): whether
`git.status()` succeeds and which locally modified paths it reports, whether
`git.fetch()` and the name-only `git.diff` succeed, the raw diff lines, and
the fingerprint the filesystem reports for each path. -/
structure DetectEnv where
  repoPath : String
  statusOk : Bool
  statusFiles : List String
  fetchOk : Bool
  diffOk : Bool
  remoteDiffLines : List String
  fileMtime : String → Int
  fileHash : String → Option String

/-- Return value of `detectConflicts`. -/
structure DetectResult where
  hasConflicts : Bool
  conflicts : List Conflict
deriving DecidableEq

/-- The `detectConflicts` function (src lines 113-167) together with the
trace of git/network operations it performed.  The fetch is attempted
unconditionally right after the status read, BEFORE the set of locally
modified files is tested for emptiness; any throwing call lands in the
catch, which reports no conflicts. -/
def detectConflicts (e : DetectEnv) : DetectResult × List GitOp :=
  if !e.statusOk then (⟨false, []⟩, [])
  else if !e.fetchOk then (⟨false, []⟩, [GitOp.fetch])
  else if e.statusFiles.isEmpty then (⟨false, []⟩, [GitOp.fetch])
  else if !e.diffOk then (⟨false, []⟩, [GitOp.fetch, GitOp.diff])
  else
    let remoteChanges := e.remoteDiffLines.filter keptDiffLine
    if remoteChanges.isEmpty then (⟨false, []⟩, [GitOp.fetch, GitOp.diff])
    else
      let conflicts := (e.statusFiles.filter (fun f => remoteChanges.contains f)).map
        (fun f => { file := f, path := e.repoPath ++ "/" ++ f,
                    localMtime := e.fileMtime f, localHash := e.fileHash f })
      (⟨!conflicts.isEmpty, conflicts⟩, [GitOp.fetch, GitOp.diff])

/-- A repository whose working tree is clean: the status call succeeds and
reports zero locally modified files; the remote is reachable. -/
def quietRepoEnv : DetectEnv :=
  { repoPath := "repo", statusOk := true, statusFiles := [], fetchOk := true,
    diffOk := true, remoteDiffLines := [], fileMtime := fun _ => 0,
    fileHash := fun _ => none }

/-- C5 counterexample: on a repository whose status reports zero modified
files the detector does return no conflicts, but its trace contains a fetch:
the network call happens before the emptiness test, so "no network operation
is performed" is false. -/
theorem quietDetectStillFetches :
    (detectConflicts quietRepoEnv).1 = ⟨false, []⟩ ∧
    GitOp.fetch ∈ (detectConflicts quietRepoEnv).2 := by
  decide

/-- C5 (amended): on every repository whose status read succeeds and reports
zero locally modified files, the detector returns
`{hasConflicts := false, conflicts := []}` and its operation trace is
exactly one fetch - the single network call made before the emptiness test -
and in particular contains no diff. -/
theorem quietDetectOneFetchNoDiff (e : DetectEnv)
    (hs : e.statusOk = true) (hf : e.statusFiles = []) :
    detectConflicts e = (⟨false, []⟩, [GitOp.fetch]) := by
  cases hfo : e.fetchOk <;> simp [detectConflicts, hs, hf, hfo]

/-- Witness: the amended C5 statement on the concrete quiet repository. -/
theorem quietDetectOneFetchNoDiff_witness :
    detectConflicts quietRepoEnv = (⟨false, []⟩, [GitOp.fetch]) :=
  quietDetectOneFetchNoDiff quietRepoEnv rfl rfl

/-- C8: fail-open detection - whenever the status read succeeds but the
fetch or the diff fails, the detector reports
`{hasConflicts := false, conflicts := []}` instead of raising or reporting
a conflict.  (The fingerprinting helpers of the source absorb their own
errors into sentinel values and cannot raise, so fetch and diff are the only
failable steps after the status read.) -/
theorem detectFailOpen (e : DetectEnv) (hs : e.statusOk = true)
    (hfail : e.fetchOk = false ∨ e.diffOk = false) :
    (detectConflicts e).1 = ⟨false, []⟩ := by
  rcases hfail with hf | hd
  · simp [detectConflicts, hs, hf]
  · cases hfo : e.fetchOk <;>
      cases hfe : e.statusFiles.isEmpty <;>
      simp [detectConflicts, hs, hd, hfo, hfe]

/-- A repository where the fetch call raises. -/
def fetchFailEnv : DetectEnv :=
  { repoPath := "repo", statusOk := true, statusFiles := ["a.txt"], fetchOk := false,
    diffOk := true, remoteDiffLines := ["a.txt"], fileMtime := fun _ => 3,
    fileHash := fun _ => some "A" }

/-- Witness: fail-open detection on the concrete repository whose fetch
raises. -/
theorem detectFailOpen_witness :
    (detectConflicts fetchFailEnv).1 = ⟨false, []⟩ :=
  detectFailOpen fetchFailEnv rfl (Or.inl rfl)

/-- A characterwise starts-with test succeeds exactly when the second list
is a leading segment of the first. -/
theorem startsWithChars_iff (s p : List Char) :
    startsWithChars s p = true ↔ ∃ t, s = p ++ t := by
  induction p generalizing s with
  | nil => simp [startsWithChars]
  | cons d p ih =>
    cases s with
    | nil => simp [startsWithChars]
    | cons c s =>
      simp [startsWithChars, ih, List.cons_eq_cons, exists_and_left]

/-- The `isRepoEmpty` function (src lines 411-431).  `logTotal` is the
commit count reported by `git.log` (`none` when the call raises) and
`lsTree` the parsed name list of the single commit's tree as produced from
the `ls-tree` output (`none` when that call raises); any raise lands in the
catch, which reports not-empty.  A repository is empty when it has zero
commits, or exactly one commit whose tree holds exactly one file whose
lowercased name starts with "readme". -/
def isRepoEmpty (logTotal : Option Nat) (lsTree : Option (List String)) : Bool :=
  match logTotal with
  | none => false
  | some total =>
    if total = 0 then true
    else if total = 1 then
      match lsTree with
      | none => false
      | some files =>
        match files with
        | [f] => jsStartsWith (jsToLower f) "readme"
        | _ => false
    else false

/-- C6: a repository classifies as empty exactly when it has zero commits,
or exactly one commit whose tree contains exactly one file whose name
case-insensitively starts with "readme"; in particular one commit with only
`README.md` is empty, and one commit with `README.md` and `LICENSE` is not. -/
theorem isRepoEmptyCharacterization :
    (∀ (logTotal : Option Nat) (lsTree : Option (List String)),
      isRepoEmpty logTotal lsTree = true ↔
        (logTotal = some 0 ∨
          (logTotal = some 1 ∧ ∃ f, lsTree = some [f] ∧
            ∃ rest, f.data.map Char.toLower = "readme".data ++ rest))) ∧
    isRepoEmpty (some 1) (some ["README.md"]) = true ∧
    isRepoEmpty (some 1) (some ["README.md", "LICENSE"]) = false ∧
    isRepoEmpty (some 0) none = true := by
  refine ⟨?_, by decide, by decide, by decide⟩
  intro logTotal lsTree
  cases logTotal with
  | none => simp [isRepoEmpty]
  | some total =>
    by_cases h0 : total = 0
    · subst h0; simp [isRepoEmpty]
    · by_cases h1 : total = 1
      · subst h1
        cases lsTree with
        | none => simp [isRepoEmpty, h0]
        | some files =>
          match files with
          | [] => simp [isRepoEmpty, h0]
          | [f] =>
            simp [isRepoEmpty, h0, jsStartsWith, jsToLower, startsWithChars_iff]
          | f :: g :: rest => simp [isRepoEmpty, h0]
      · simp [isRepoEmpty, h0, h1]

/-- Result record returned by `pullRepoSafe` when the conflict check
reported conflicts (src lines 258-277). -/
structure ConflictPullRes where
  pulled : Bool
  conflicts : Nat
  resolved : Nat
  skipped : Nat
  failed : Nat
deriving DecidableEq

/-- The conflict branch of `pullRepoSafe` (src lines 258-277): it counts
resolutions that are neither `failed` nor `skipped` as resolved, counts
skipped and failed ones, and reports `pulled` exactly when at least one
file was resolved or skipped. -/
def pullRepoSafeConflictBranch (nConflicts : Nat) (rs : List Resolution) :
    ConflictPullRes :=
  let resolvedCount := (rs.filter (fun r =>
    r.resolution ≠ ResolutionKind.failed ∧ r.resolution ≠ ResolutionKind.skipped)).length
  let skippedCount := (rs.filter (fun r => r.resolution = ResolutionKind.skipped)).length
  let failedCount := (rs.filter (fun r => r.resolution = ResolutionKind.failed)).length
  { pulled := decide (0 < resolvedCount) || decide (0 < skippedCount),
    conflicts := nConflicts, resolved := resolvedCount,
    skipped := skippedCount, failed := failedCount }

/-- C7: for a non-empty resolution batch the Safe Puller reports
`pulled := true` exactly when some file's outcome is resolved (identical,
local-newer or remote-newer) or skipped, and `pulled := false` exactly when
every file's outcome is failed. -/
theorem conflictBatchPulledIff (nConflicts : Nat) (rs : List Resolution)
    (hne : rs ≠ []) :
    ((pullRepoSafeConflictBranch nConflicts rs).pulled = true ↔
      ∃ r ∈ rs, r.resolution = ResolutionKind.identical ∨
        r.resolution = ResolutionKind.localNewer ∨
        r.resolution = ResolutionKind.remoteNewer ∨
        r.resolution = ResolutionKind.skipped) ∧
    ((pullRepoSafeConflictBranch nConflicts rs).pulled = false ↔
      ∀ r ∈ rs, r.resolution = ResolutionKind.failed) := by
  have key : (pullRepoSafeConflictBranch nConflicts rs).pulled = true ↔
      ∃ r ∈ rs, r.resolution ≠ ResolutionKind.failed := by
    simp only [pullRepoSafeConflictBranch, Bool.or_eq_true, decide_eq_true_eq,
      List.length_pos, ne_eq, ← List.length_pos]
    constructor
    · rintro (h | h)
      · obtain ⟨r, hr⟩ := List.exists_mem_of_length_pos h
        have := List.mem_filter.mp hr
        exact ⟨r, this.1, by
          have h2 := of_decide_eq_true this.2
          exact h2.1⟩
      · obtain ⟨r, hr⟩ := List.exists_mem_of_length_pos h
        have := List.mem_filter.mp hr
        refine ⟨r, this.1, ?_⟩
        have h2 := of_decide_eq_true this.2
        simp [h2]
    · rintro ⟨r, hmem, hnf⟩
      cases hk : r.resolution with
      | skipped =>
        right
        refine List.length_pos.mpr (List.ne_nil_of_mem (List.mem_filter.mpr ⟨hmem, ?_⟩))
        simp [hk]
      | failed => exact absurd hk hnf
      | identical =>
        left
        refine List.length_pos.mpr (List.ne_nil_of_mem (List.mem_filter.mpr ⟨hmem, ?_⟩))
        simp [hk]
      | localNewer =>
        left
        refine List.length_pos.mpr (List.ne_nil_of_mem (List.mem_filter.mpr ⟨hmem, ?_⟩))
        simp [hk]
      | remoteNewer =>
        left
        refine List.length_pos.mpr (List.ne_nil_of_mem (List.mem_filter.mpr ⟨hmem, ?_⟩))
        simp [hk]
  constructor
  · rw [key]
    constructor
    · rintro ⟨r, hmem, hnf⟩
      refine ⟨r, hmem, ?_⟩
      cases hk : r.resolution <;> simp_all
    · rintro ⟨r, hmem, hk⟩
      refine ⟨r, hmem, ?_⟩
      rcases hk with h | h | h | h <;> simp [h]
  · constructor
    · intro hfalse r hmem
      by_contra hne2
      have : (pullRepoSafeConflictBranch nConflicts rs).pulled = true :=
        key.mpr ⟨r, hmem, hne2⟩
      simp [hfalse] at this
    · intro hall
      cases hp : (pullRepoSafeConflictBranch nConflicts rs).pulled
      · rfl
      · obtain ⟨r, hmem, hnf⟩ := key.mp hp
        exact absurd (hall r hmem) hnf

/-- A batch in which one file failed and one was skipped. -/
def mixedBatch : List Resolution :=
  [⟨"a.txt", ResolutionKind.failed⟩, ⟨"b.txt", ResolutionKind.skipped⟩]

/-- Witness: the C7 rule evaluated on a concrete batch with one failed and
one skipped file - it reports `pulled := true` because the skipped file
counts. -/
theorem conflictBatchPulledIff_witness :
    ((pullRepoSafeConflictBranch 2 mixedBatch).pulled = true ↔
      ∃ r ∈ mixedBatch, r.resolution = ResolutionKind.identical ∨
        r.resolution = ResolutionKind.localNewer ∨
        r.resolution = ResolutionKind.remoteNewer ∨
        r.resolution = ResolutionKind.skipped) ∧
    ((pullRepoSafeConflictBranch 2 mixedBatch).pulled = false ↔
      ∀ r ∈ mixedBatch, r.resolution = ResolutionKind.failed) :=
  conflictBatchPulledIff 2 mixedBatch (by decide)

/-- Result record of `pullRepoSafe` as its callers inside `pushRepoSafe`
observe it: the `pulled` flag and the `reason` string (the function never
raises past its boundary, so the whole invocation is represented by this
record). -/
structure PullRes where
  pulled : Bool
  reason : Option String
deriving DecidableEq

/-- The test `pushRepoSafe` applies to a pull result before continuing with
a push (src lines 328 and 351): the pull succeeded or reported up-to-date. -/
def pullUsable (r : PullRes) : Bool := r.pulled || r.reason == some "up to date"

/-- World answers consumed by `pushRepoSafe` (src lines 303-365): the number
of changed files the status reports, success of fetch / rev-parse / add /
commit, the two branch tips, the results of the two possible `pullRepoSafe`
invocations, and whether each of the at most two push attempts is accepted. -/
structure PushEnv where
  nFiles : Nat
  fetchOk : Bool
  revparseOk : Bool
  localTip : String
  remoteTip : String
  prePull : PullRes
  addOk : Bool
  commitOk : Bool
  push1Ok : Bool
  retryPull : PullRes
  push2Ok : Bool

/-- Result record of `pushRepoSafe`; `retried` models the `retried: true`
flag the source adds only to a success after the one retry.  The `reason`
strings standing in for propagated error messages are fixed stand-ins. -/
structure PushResult where
  pushed : Bool
  retried : Bool
  reason : Option String
deriving DecidableEq

/-- Observable run of `pushRepoSafe`: its returned result, how many push
attempts were made, how many times `pullRepoSafe` ran before the commit and
in the retry path, and how many commits the run created in the local
repository (nothing in the source ever removes a created commit). -/
structure PushRun where
  result : PushResult
  pushAttempts : Nat
  prePullRuns : Nat
  retryPullRuns : Nat
  commitsCreated : Nat
deriving DecidableEq

/-- The `pushRepoSafe` function (src lines 303-365).  No changes short-cuts
out; a failing fetch or rev-parse lands in the outer catch; diverged tips
trigger a preliminary pull whose failure aborts the push; otherwise all
changes are staged and committed, the push is attempted, and on rejection
the Safe Puller runs once more followed by exactly one retry; every failure
is returned as a `pushed := false` record, never raised. -/
def pushRepoSafe (e : PushEnv) : PushRun :=
  if e.nFiles = 0 then
    ⟨⟨false, false, some "no changes"⟩, 0, 0, 0, 0⟩
  else if !e.fetchOk then
    ⟨⟨false, false, some "fetch failed"⟩, 0, 0, 0, 0⟩
  else if !e.revparseOk then
    ⟨⟨false, false, some "rev lookup failed"⟩, 0, 0, 0, 0⟩
  else if e.localTip ≠ e.remoteTip ∧ pullUsable e.prePull = false then
    ⟨⟨false, false, some "pull failed before push"⟩, 0, 1, 0, 0⟩
  else
    let pre : Nat := if e.localTip ≠ e.remoteTip then 1 else 0
    if !e.addOk then
      ⟨⟨false, false, some "add failed"⟩, 0, pre, 0, 0⟩
    else if !e.commitOk then
      ⟨⟨false, false, some "commit failed"⟩, 0, pre, 0, 0⟩
    else if e.push1Ok then
      ⟨⟨true, false, none⟩, 1, pre, 0, 1⟩
    else if pullUsable e.retryPull then
      if e.push2Ok then
        ⟨⟨true, true, none⟩, 2, pre, 1, 1⟩
      else
        ⟨⟨false, false, some "second push rejected"⟩, 2, pre, 1, 1⟩
    else
      ⟨⟨false, false, some "Push rejected and pull failed"⟩, 1, pre, 1, 1⟩

/-- The run reaches the first push attempt: there are changes, fetch and
rev-parse succeed, a diverged remote was successfully pulled first, and
staging and committing succeed. -/
def reachesFirstPush (e : PushEnv) : Prop :=
  e.nFiles ≠ 0 ∧ e.fetchOk = true ∧ e.revparseOk = true ∧
  (e.localTip ≠ e.remoteTip → pullUsable e.prePull = true) ∧
  e.addOk = true ∧ e.commitOk = true

instance (e : PushEnv) : Decidable (reachesFirstPush e) := by
  unfold reachesFirstPush
  infer_instance

/-- C2: every run of the Safe Pusher makes at most two push attempts, and
when the first attempt is rejected the Safe Puller runs exactly once in the
retry path; if that pull succeeds or reports up-to-date the push is retried
exactly once, a successful retry returns success with `retried := true` and
a second rejection returns failure; if the retry-path pull fails no retry
happens at all and failure is returned.  In no execution is a third push
attempted. -/
theorem pushRetryBounded (e : PushEnv) :
    (pushRepoSafe e).pushAttempts ≤ 2 ∧
    (reachesFirstPush e → e.push1Ok = false →
      ((pushRepoSafe e).retryPullRuns = 1 ∧
       (pullUsable e.retryPull = true →
          (pushRepoSafe e).pushAttempts = 2 ∧
          (e.push2Ok = true → (pushRepoSafe e).result = ⟨true, true, none⟩) ∧
          (e.push2Ok = false → (pushRepoSafe e).result.pushed = false ∧
            (pushRepoSafe e).result.reason.isSome = true)) ∧
       (pullUsable e.retryPull = false →
          (pushRepoSafe e).pushAttempts = 1 ∧
          (pushRepoSafe e).result.pushed = false))) := by
  constructor
  · unfold pushRepoSafe
    repeat' split
    all_goals decide
  · rintro ⟨hn, hf, hr, hpre, ha, hc⟩ h1
    have hcond : ¬ (e.localTip ≠ e.remoteTip ∧ pullUsable e.prePull = false) := by
      rintro ⟨ht, hu⟩
      rw [hpre ht] at hu
      cases hu
    cases hru : pullUsable e.retryPull <;>
      cases h2 : e.push2Ok <;>
      simp [pushRepoSafe, hn, hf, hr, hcond, ha, hc, h1, hru, h2]

/-- A run whose first push is rejected and whose retry succeeds. -/
def envRetrySucceeds : PushEnv :=
  { nFiles := 3, fetchOk := true, revparseOk := true, localTip := "abc",
    remoteTip := "abc", prePull := ⟨false, none⟩, addOk := true, commitOk := true,
    push1Ok := false, retryPull := ⟨true, none⟩, push2Ok := true }

/-- Witness: the bounded-retry theorem evaluated on the concrete run whose
first push is rejected and whose pull-and-retry succeeds. -/
theorem pushRetryBounded_witness :
    (pushRepoSafe envRetrySucceeds).pushAttempts ≤ 2 ∧
    (pushRepoSafe envRetrySucceeds).retryPullRuns = 1 ∧
    (pushRepoSafe envRetrySucceeds).pushAttempts = 2 ∧
    (pushRepoSafe envRetrySucceeds).result = ⟨true, true, none⟩ := by
  have h := pushRetryBounded envRetrySucceeds
  have h2 := h.2 (by decide) rfl
  exact ⟨h.1, h2.1, (h2.2.1 rfl).1, (h2.2.1 rfl).2.1 rfl⟩

/-- C9: when a run reaches the commit step (so a local commit is created)
and the push side then fails, the function still returns a tagged failure
record `pushed := false` with a reason instead of raising, and the commit
created in the commit step remains in the local repository - the run
performs nothing that removes it. -/
theorem pushFailureKeepsCommit (e : PushEnv)
    (hreach : reachesFirstPush e)
    (hfail : (pushRepoSafe e).result.pushed = false) :
    (pushRepoSafe e).commitsCreated = 1 ∧
    (pushRepoSafe e).result.reason.isSome = true := by
  obtain ⟨hn, hf, hr, hpre, ha, hc⟩ := hreach
  have hcond : ¬ (e.localTip ≠ e.remoteTip ∧ pullUsable e.prePull = false) := by
    rintro ⟨ht, hu⟩
    rw [hpre ht] at hu
    cases hu
  cases h1 : e.push1Ok <;>
    cases hru : pullUsable e.retryPull <;>
    cases h2 : e.push2Ok <;>
    simp [pushRepoSafe, hn, hf, hr, hcond, ha, hc, h1, hru, h2] at hfail ⊢

/-- A run whose first push is rejected and whose retry-path pull fails. -/
def envPushThenPullFails : PushEnv :=
  { nFiles := 2, fetchOk := true, revparseOk := true, localTip := "abc",
    remoteTip := "abc", prePull := ⟨false, none⟩, addOk := true, commitOk := true,
    push1Ok := false, retryPull := ⟨false, some "network down"⟩, push2Ok := true }

/-- Witness: the C9 statement evaluated on the concrete failing run: the
commit stays and the result is a tagged failure. -/
theorem pushFailureKeepsCommit_witness :
    (pushRepoSafe envPushThenPullFails).commitsCreated = 1 ∧
    (pushRepoSafe envPushThenPullFails).result.reason.isSome = true :=
  pushFailureKeepsCommit envPushThenPullFails (by decide) (by decide)

/-- Which reconciliation pass processed a repository: the remote pass pulls
paired repositories and clones unpaired remote ones (src lines 549-571), the
local pass pushes or retires the remaining local ones (src lines 575-592). -/
inductive PassKind where
  | pullPass
  | clonePass
  | pushPass
deriving DecidableEq

/-- One processed repository in a run of `main`: its lowercased name and the
pass that handled it.  Each event corresponds to exactly one increment of
the `currentOp` progress counter. -/
structure SyncEvent where
  key : String
  pass : PassKind
deriving DecidableEq

/-- Lookup in the local-inventory map (`localRepos.get`), keyed by the
lowercased repository name. -/
def lookupKey (k : String) : List (String × String) → Option String
  | [] => none
  | p :: rest => if p.1 = k then some p.2 else lookupKey k rest

/-- Phase 3 of `main` (src lines 549-571): for each remote repository, in
order, pull it if a local counterpart exists - deleting that entry from the
local inventory - and clone it otherwise.  Returns the events of the pass
and the local inventory left for phase 4.  Deleting a key from the map is
modelled by filtering it out of the association list. -/
def phase3 : List String → List (String × String) →
    List SyncEvent × List (String × String)
  | [], locals => ([], locals)
  | g :: rest, locals =>
    let k := jsToLower g
    if (lookupKey k locals).isSome then
      let r := phase3 rest (locals.filter (fun p => p.1 ≠ k))
      (⟨k, PassKind.pullPass⟩ :: r.1, r.2)
    else
      let r := phase3 rest locals
      (⟨k, PassKind.clonePass⟩ :: r.1, r.2)

/-- Both reconciliation passes of `main`: phase 3 over the remote inventory
followed by phase 4 over whatever is left of the local inventory. -/
def mainRun (github : List String) (locals : List (String × String)) :
    List SyncEvent :=
  (phase3 github locals).1 ++
    (phase3 github locals).2.map (fun p => (⟨p.1, PassKind.pushPass⟩ : SyncEvent))

/-- Final value of the `currentOp` progress counter: it is incremented once
per loop iteration, i.e. once per event. -/
def finalCounter (github : List String) (locals : List (String × String)) : Nat :=
  (mainRun github locals).length

/-- The phase-3 events list carries exactly the lowercased remote names, in
order. -/
theorem phase3_keys (gh : List String) (ls : List (String × String)) :
    ((phase3 gh ls).1).map SyncEvent.key = gh.map jsToLower := by
  induction gh generalizing ls with
  | nil => simp [phase3]
  | cons g rest ih =>
    cases h : (lookupKey (jsToLower g) ls).isSome <;> simp [phase3, h, ih]

/-- No phase-3 event is a push event. -/
theorem phase3_no_push (gh : List String) (ls : List (String × String)) :
    ∀ ev ∈ (phase3 gh ls).1, ev.pass ≠ PassKind.pushPass := by
  induction gh generalizing ls with
  | nil => simp [phase3]
  | cons g rest ih =>
    cases h : (lookupKey (jsToLower g) ls).isSome <;>
      simp only [phase3, h, Bool.false_eq_true, if_false, if_true, List.mem_cons,
        forall_eq_or_imp] <;>
      exact ⟨by simp, fun ev hm => ih _ ev hm⟩

/-- Filtering out a key that a lookup cannot find leaves the list unchanged. -/
theorem lookupKey_none_filter (k : String) (ls : List (String × String))
    (h : lookupKey k ls = none) : ls.filter (fun p => p.1 ≠ k) = ls := by
  induction ls with
  | nil => rfl
  | cons p rest ih =>
    by_cases hp : p.1 = k
    · simp [lookupKey, hp] at h
    · rw [lookupKey, if_neg hp] at h
      have hd : (decide (p.1 ≠ k)) = true := by simpa using hp
      rw [List.filter_cons, if_pos hd, ih h]

/-- The local inventory that survives phase 3 is exactly the original one
with every lowercased remote name filtered out: a paired repository is
removed right after its pull. -/
theorem phase3_rem (gh : List String) (ls : List (String × String)) :
    (phase3 gh ls).2 = ls.filter (fun p => p.1 ∉ gh.map jsToLower) := by
  induction gh generalizing ls with
  | nil => simp [phase3]
  | cons g rest ih =>
    have step : (phase3 (g :: rest) ls).2 =
        (phase3 rest (ls.filter (fun p => p.1 ≠ jsToLower g))).2 := by
      cases h : (lookupKey (jsToLower g) ls).isSome
      · have hn : lookupKey (jsToLower g) ls = none := by
          cases hl : lookupKey (jsToLower g) ls
          · rfl
          · rw [hl] at h
            cases h
        rw [lookupKey_none_filter _ _ hn]
        simp [phase3, h]
      · simp [phase3, h]
    rw [step, ih, List.filter_filter]
    apply List.filter_congr
    intro p hp
    simp [List.mem_cons, not_or, Bool.and_comm]

/-- Mapping first components commutes with filtering on a key predicate. -/
theorem map_fst_filter_key (q : String → Bool) (ls : List (String × String)) :
    (ls.filter (fun p => q p.1)).map Prod.fst = (ls.map Prod.fst).filter q := by
  induction ls with
  | nil => rfl
  | cons p rest ih =>
    cases h : q p.1 <;> simp [List.filter_cons, h, ih]

/-- C10 counterexample: with one remote repository "Alpha" paired with the
one local repository "alpha", the progress counter ends at 1, not at the
remote count plus the initial local count (2): the paired repository is
processed - and counted - only once, in the pull pass. -/
theorem progressCounterShortfall :
    finalCounter ["Alpha"] [("alpha", "p")] = 1 ∧
    ¬ (finalCounter ["Alpha"] [("alpha", "p")] =
        (["Alpha"] : List String).length +
        ([("alpha", "p")] : List (String × String)).length) := by
  decide

/-- C10 (amended): when the lowercased remote names and the local keys are
each duplicate-free (as the remote listing and the local map guarantee),
every repository name of either inventory is processed in exactly one pass
and the counter - which increments exactly once per processed repository,
hence monotonically - ends at the remote count plus the number of local
repositories NOT paired with a remote one; the push/retire pass visits only
repositories absent from the remote inventory, the paired ones having been
removed from the local inventory by their pull. -/
theorem orchestratorExactlyOnce (gh : List String) (ls : List (String × String))
    (hgh : (gh.map jsToLower).Nodup) (hls : (ls.map Prod.fst).Nodup) :
    (∀ k, k ∈ gh.map jsToLower ∨ k ∈ ls.map Prod.fst →
        ((mainRun gh ls).map SyncEvent.key).count k = 1) ∧
    (∀ ev ∈ mainRun gh ls, ev.pass = PassKind.pushPass →
        ev.key ∉ gh.map jsToLower) ∧
    (phase3 gh ls).2 = ls.filter (fun p => p.1 ∉ gh.map jsToLower) ∧
    finalCounter gh ls =
      gh.length + ((ls.map Prod.fst).filter (fun k => k ∉ gh.map jsToLower)).length := by
  have hcomp : (SyncEvent.key ∘ fun p : String × String =>
      (⟨p.1, PassKind.pushPass⟩ : SyncEvent)) = Prod.fst := rfl
  have hkeys : (mainRun gh ls).map SyncEvent.key =
      gh.map jsToLower ++
        (ls.map Prod.fst).filter (fun k => k ∉ gh.map jsToLower) := by
    simp only [mainRun, List.map_append, phase3_keys, List.map_map, hcomp]
    congr 1
    rw [phase3_rem]
    exact map_fst_filter_key (fun k => decide (k ∉ gh.map jsToLower)) ls
  refine ⟨?_, ?_, phase3_rem gh ls, ?_⟩
  · intro k hk
    rw [hkeys, List.count_append]
    by_cases hmem : k ∈ gh.map jsToLower
    · rw [List.count_eq_one_of_mem hgh hmem, List.count_eq_zero_of_not_mem]
      intro hcontra
      exact absurd hmem (by simpa using (List.mem_filter.mp hcontra).2)
    · rcases hk with h | h
      · exact absurd h hmem
      · rw [List.count_eq_zero_of_not_mem hmem,
          List.count_eq_one_of_mem (hls.filter _)
            (List.mem_filter.mpr ⟨h, by simpa using hmem⟩)]
  · intro ev hev hpass
    rcases List.mem_append.mp hev with h | h
    · exact absurd hpass (phase3_no_push gh ls ev h)
    · obtain ⟨p, hp, rfl⟩ := List.mem_map.mp h
      rw [phase3_rem] at hp
      simpa using (List.mem_filter.mp hp).2
  · have := congrArg List.length hkeys
    simpa [finalCounter, List.length_map] using this

/-- A concrete inventory pair: remote "Alpha" is paired with local "alpha",
remote "Beta" has no local counterpart, local "gamma" has no remote one. -/
def ghDemo : List String := ["Alpha", "Beta"]

/-- The matching local inventory for `ghDemo`. -/
def lsDemo : List (String × String) := [("alpha", "p1"), ("gamma", "p2")]

/-- Witness: the amended C10 statement on the concrete inventories - the
paired name "alpha" and the unpaired local name "gamma" are each processed
exactly once. -/
theorem orchestratorExactlyOnce_witness :
    ((mainRun ghDemo lsDemo).map SyncEvent.key).count "alpha" = 1 ∧
    ((mainRun ghDemo lsDemo).map SyncEvent.key).count "gamma" = 1 := by
  have h := orchestratorExactlyOnce ghDemo lsDemo (by decide) (by decide)
  exact ⟨h.1 "alpha" (by decide), h.1 "gamma" (by decide)⟩

end GitAutoSync
